import Mathlib

set_option linter.unusedVariables false

/-!
Verification development for the WAV-to-MP3 converter.

The repository's logic is embedded shallowly:
* `utils/dataViewUtils.ts` and `utils/wavParser.ts` as pure functions over a
  byte buffer modelled as `List Nat` (each entry one byte, 0..255).  A JS
  `DataView` read past the end of the buffer throws a RangeError; throwing is
  modelled explicitly (`Option` for single reads, a `threw` outcome for the
  whole decoder), since `parseWavFile` itself has no try/catch.
* `hooks/useWavToMp3Converter.ts` (`convertWavToMp3`) with the external lamejs
  encoder abstracted as a function from block index to returned byte chunk.
* The job-queue controller of the application component (`App`) as a state
  record plus one transition function per event handler / effect, and a
  reachability relation over interleavings of those events.
-/

namespace WavToMp3

/-- Model of `getStringFromDataView` (utils/dataViewUtils.ts): reads `len`
bytes one `view.getUint8(offset + i)` at a time; the first out-of-bounds read
throws a RangeError, modelled by `none`.  The returned JS string of char codes
is modelled as the list of those byte values. -/
def getStringFromDataView (view : List Nat) : Nat → Nat → Option (List Nat)
  | _, 0 => some []
  | offset, len + 1 => do
    let b ← view[offset]?
    let rest ← getStringFromDataView view (offset + 1) len
    pure (b :: rest)

/-- `DataView.getUint16(o, true)` (little endian); throws (`none`) when fewer
than 2 bytes remain from `o`. -/
def getUint16 (view : List Nat) (o : Nat) : Option Nat := do
  let b0 ← view[o]?
  let b1 ← view[o + 1]?
  pure (b0 + 256 * b1)

/-- `DataView.getUint32(o, true)` (little endian). -/
def getUint32 (view : List Nat) (o : Nat) : Option Nat := do
  let b0 ← view[o]?
  let b1 ← view[o + 1]?
  let b2 ← view[o + 2]?
  let b3 ← view[o + 3]?
  pure (b0 + 256 * b1 + 65536 * b2 + 16777216 * b3)

/-- The char codes of `"RIFF"`. -/
def riffTag : List Nat := [82, 73, 70, 70]

/-- The char codes of `"WAVE"`. -/
def waveTag : List Nat := [87, 65, 86, 69]

/-- The char codes of `"fmt "`. -/
def fmtTag : List Nat := [102, 109, 116, 32]

/-- The char codes of `"data"`. -/
def dataTag : List Nat := [100, 97, 116, 97]

/-- `WavData` (utils/wavParser.ts): the canonical audio record. -/
structure WavData where
  channels : Nat
  sampleRate : Nat
  samples : List Int
  bitsPerSampleOriginal : Nat
deriving DecidableEq, Repr

/-- Result of `parseWavFile`: a record, an explicit `null` (decode failure), or
an escaping exception (RangeError). -/
inductive ParseResult where
  | ok (w : WavData)
  | fail
  | threw
deriving DecidableEq, Repr

/-- The mutable locals of the chunk-scan loop: `foundFmt`, `channels`,
`sampleRate`, `bitsPerSampleOriginal`. -/
structure ScanState where
  foundFmt : Bool
  channels : Nat
  sampleRate : Nat
  bitsPerSampleOriginal : Nat
deriving DecidableEq, Repr

/-- How the chunk-scan loop ends: a thrown RangeError, an early `return null`,
or falling out of the loop (`dataChunk = some (offset, size)` when the loop
stopped at a `data` chunk, `none` when it ran off the end of the buffer). -/
inductive ScanOutcome where
  | threw
  | returnedNull
  | finished (st : ScanState) (dataChunk : Option (Nat × Nat))
deriving DecidableEq, Repr

def initialScanState : ScanState := ⟨false, 0, 0, 0⟩

/-- Fueled model of the chunk-scan `while` loop of `parseWavFile`
(utils/wavParser.ts lines 28-81).  The fuel only bounds the number of
iterations: every iteration advances `offset` by at least 8, so any fuel with
`view.length ≤ offset + 8 * fuel` computes the loop exactly (`scanLoop_congr`
below), and fuel 0 coincides with the loop-exit outcome. -/
def scanLoop (view : List Nat) : Nat → Nat → ScanState → ScanOutcome
  | 0, _, st => .finished st none
  | fuel + 1, offset, st =>
    if offset < view.length then
      if offset + 8 > view.length then .finished st none
      else
        match getStringFromDataView view offset 4, getUint32 view (offset + 4) with
        | some chunkId, some chunkSize =>
          if chunkId = fmtTag then
            if chunkSize < 16 then .returnedNull
            else
              match getUint16 view (offset + 8) with
              | none => .threw
              | some audioFormat =>
                if audioFormat ≠ 1 then .returnedNull
                else
                  match getUint16 view (offset + 10), getUint32 view (offset + 12),
                      getUint16 view (offset + 22) with
                  | some ch, some sr, some bits =>
                    if bits ≠ 8 ∧ bits ≠ 16 then .returnedNull
                    else scanLoop view fuel (offset + 8 + chunkSize + chunkSize % 2)
                        ⟨true, ch, sr, bits⟩
                  | _, _, _ => .threw
          else if chunkId = dataTag then
            if st.foundFmt = false then .returnedNull
            else .finished st (some (offset + 8, chunkSize))
          else scanLoop view fuel (offset + 8 + chunkSize + chunkSize % 2) st
        | _, _ => .threw
    else .finished st none

/-- The chunk scan of `parseWavFile`, started with enough fuel to run the loop
to completion from any offset. -/
def scanChunks (view : List Nat) (offset : Nat) (st : ScanState) : ScanOutcome :=
  scanLoop view (view.length + 1) offset st

/-- JS `ToInt32` (the coercion applied by the `<<` operator). -/
def jsToInt32 (n : Int) : Int := (n + 2147483648) % 4294967296 - 2147483648

/-- Wrap to a signed 16-bit value, as storing into an `Int16Array` does. -/
def jsToInt16 (n : Int) : Int := (n + 32768) % 65536 - 32768

/-- The 8-bit conversion loop body `samples[i] = (eightBitSamples[i] - 128) << 8`
(utils/wavParser.ts line 104): JS `<<` coerces both operand and result to
Int32, and the store into the `Int16Array` wraps to signed 16 bits. -/
def conv8 (b : Nat) : Int := jsToInt16 (jsToInt32 (jsToInt32 ((b : Int) - 128) * 256))

/-- Element `i` of `new Int16Array(buffer, o, n)`: the little-endian signed
16-bit value at byte offset `o + 2 * i` (bounds already checked by the view
constructor). -/
def readInt16 (view : List Nat) (o : Nat) : Int :=
  let v := view.getD o 0 + 256 * view.getD (o + 1) 0
  if v < 32768 then (v : Int) else (v : Int) - 65536

/-- The sample list exposed by `new Int16Array(buffer, o, n)`. -/
def int16SamplesOf (view : List Nat) (o n : Nat) : List Int :=
  (List.range n).map (fun i => readInt16 view (o + 2 * i))

/-- Lines 88-111 of `parseWavFile`: sample construction after the chunk scan.
`new Int16Array(buffer, off, len)` throws a RangeError when `off` is not
2-aligned or when the view would extend past the buffer end; a fractional JS
length (`dataChunkSize / 2` for an odd size) is truncated toward zero by
`ToIndex`, i.e. `Nat` division.  `new Uint8Array(buffer, off, len)` throws
only on the bounds condition. -/
def buildSamples (view : List Nat) (st : ScanState)
    (dataChunkOffset dataChunkSize : Nat) : ParseResult :=
  let bytesPerSample := st.bitsPerSampleOriginal / 8
  if bytesPerSample = 0 then .fail
  else if st.bitsPerSampleOriginal = 16 then
    let numSamplesTotal := dataChunkSize / 2
    if dataChunkOffset % 2 ≠ 0 then .threw
    else if dataChunkOffset + 2 * numSamplesTotal > view.length then .threw
    else .ok ⟨st.channels, st.sampleRate,
      int16SamplesOf view dataChunkOffset numSamplesTotal, st.bitsPerSampleOriginal⟩
  else if st.bitsPerSampleOriginal = 8 then
    let numSamplesTotal := dataChunkSize
    if dataChunkOffset + numSamplesTotal > view.length then .threw
    else .ok ⟨st.channels, st.sampleRate,
      (List.range numSamplesTotal).map (fun i => conv8 (view.getD (dataChunkOffset + i) 0)),
      st.bitsPerSampleOriginal⟩
  else .fail

/-- `parseWavFile` (utils/wavParser.ts): signature check (note the JS `||`
short-circuit: the `"WAVE"` read happens only when the `"RIFF"` read matched),
chunk scan from offset 12, the `fmt `/`data`/empty-data check of line 83, then
sample construction. -/
def parseWavFile (view : List Nat) : ParseResult :=
  match getStringFromDataView view 0 4 with
  | none => .threw
  | some t0 =>
    if t0 ≠ riffTag then .fail
    else
      match getStringFromDataView view 8 4 with
      | none => .threw
      | some t1 =>
        if t1 ≠ waveTag then .fail
        else
          match scanChunks view 12 initialScanState with
          | .threw => .threw
          | .returnedNull => .fail
          | .finished st dataChunk =>
            match dataChunk with
            | none => .fail
            | some (dataChunkOffset, dataChunkSize) =>
              if st.foundFmt = false ∨ dataChunkSize = 0 then .fail
              else buildSamples view st dataChunkOffset dataChunkSize

/-! ## hooks/useWavToMp3Converter.ts -/

/-- A JS `Blob({type})`; only its byte contents and MIME tag matter here. -/
structure Blob where
  bytes : List Nat
  blobType : String
deriving DecidableEq, Repr

/-- Outcome of one run of `convertWavToMp3`: the whole body is wrapped in
`try/catch`, so it resolves with either a DONE result or an ERROR status and
never an escaping exception; `diverges` marks the one input class
(`channels = 0` with samples present) on which the JS encode loop bound
`samples.length / 0 = Infinity` never lets the loop finish. -/
inductive PipelineOutcome where
  | done (b : Blob)
  | errorResult
  | diverges
deriving DecidableEq, Repr

def LAME_SAMPLE_BLOCK_SIZE : Nat := 1152

/-- Number of iterations of the encode loop (`for i = 0; i < total; i += 1152`
with `total = samples.length / channels` as an exact JS number): the ceiling of
`samples.length / (1152 * channels)`, computed as a `Nat` ceiling division. -/
def numBlocksOf (w : WavData) : Nat :=
  if w.channels = 0 then 0
  else (w.samples.length + LAME_SAMPLE_BLOCK_SIZE * w.channels - 1) /
    (LAME_SAMPLE_BLOCK_SIZE * w.channels)

/-- The chunk list accumulated in `mp3Data`: each `encodeBuffer` result is
pushed when non-empty, in block order, then the `flush` result is pushed when
non-empty. -/
def mp3DataOf (encodeOut : Nat → List Nat) (flushOut : List Nat) (n : Nat) :
    List (List Nat) :=
  ((List.range n).map encodeOut).filter (fun c => 0 < c.length) ++
    (if 0 < flushOut.length then [flushOut] else [])

/-- `convertWavToMp3` (hooks/useWavToMp3Converter.ts), with the external lamejs
encoder abstracted: `encodeOut k` is the byte chunk returned by the k-th
`encodeBuffer` call and `flushOut` the chunk returned by `flush` (both total:
encoder exceptions would be caught by the same `try/catch` and also yield
`errorResult`).  The final blob is `new Blob(mp3Data, {type: 'audio/mpeg'})`,
i.e. the concatenation of the accumulated chunks. -/
def convertWavToMp3 (fileBytes : List Nat) (encodeOut : Nat → List Nat)
    (flushOut : List Nat) (lameLoaded : Bool) : PipelineOutcome :=
  if lameLoaded = false then .errorResult
  else
    match parseWavFile fileBytes with
    | .threw => .errorResult
    | .fail => .errorResult
    | .ok w =>
      if w.channels = 0 ∧ w.samples.length ≠ 0 then .diverges
      else .done ⟨(mp3DataOf encodeOut flushOut (numBlocksOf w)).flatten, "audio/mpeg"⟩

/-! ## The job-queue controller (the `App` component) -/

/-- The identity of a JS `File` as used by `generateFileId`. -/
structure JsFile where
  name : String
  size : Nat
  lastModified : Nat
deriving DecidableEq, Repr

/-- `generateFileId` from the application component. -/
def generateFileId (f : JsFile) : String :=
  f.name ++ "-" ++ toString f.size ++ "-" ++ toString f.lastModified

/-- `ConversionStatus` from hooks/useWavToMp3Converter.ts. -/
inductive ConversionStatus where
  | IDLE
  | READING_FILE
  | PARSING_WAV
  | CONVERTING
  | DONE
  | ERROR
deriving DecidableEq, Repr

/-- `ConverterResult` from hooks/useWavToMp3Converter.ts. -/
structure ConverterResult where
  mp3Blob : Option Blob
  mp3Url : Option String
  fileName : Option String
deriving DecidableEq, Repr

/-- `ConversionJob` from the application component. -/
structure ConversionJob where
  id : String
  file : JsFile
  status : ConversionStatus
  progress : Nat
  result : Option ConverterResult
  error : Option String
deriving DecidableEq, Repr

/-- The controller's state: the `useState` cells of the application component
that the queue logic reads and writes. -/
structure AppState where
  conversionJobs : List ConversionJob
  currentConvertingFileId : Option String
  isProcessingQueue : Bool
  totalFilesInCurrentRun : Nat
  filesProcessedInCurrentRun : Nat
  isZipping : Bool
deriving DecidableEq, Repr

def initState : AppState := ⟨[], none, false, 0, 0, false⟩

/-- The job object built for a newly selected file in `handleFilesSelect`. -/
def mkIdleJob (f : JsFile) : ConversionJob :=
  ⟨generateFileId f, f, .IDLE, 0, none, none⟩

/-- The status test `CONVERTING || PARSING_WAV || READING_FILE` used both in
`processNextFileInQueue` and in the hook-mirroring effect. -/
def activeStatusB : ConversionStatus → Bool
  | .READING_FILE => true
  | .PARSING_WAV => true
  | .CONVERTING => true
  | _ => false

/-- The deduplicated list of fresh jobs built in `handleFilesSelect`: note that
the `filter` compares only against the *existing* jobs, not against the other
members of the same batch. -/
def newJobsOf (s : AppState) (files : List JsFile) : List ConversionJob :=
  (files.map mkIdleJob).filter
    (fun nj => ! s.conversionJobs.any (fun ej => decide (ej.id = nj.id)))

/-- `handleFilesSelect`. -/
def handleFilesSelect (s : AppState) (files : List JsFile) : AppState :=
  if s.isZipping then s
  else if 0 < (newJobsOf s files).length then
    { s with conversionJobs := s.conversionJobs ++ newJobsOf s files }
  else s

/-- The new-run test of `processNextFileInQueue`:
`filesProcessedInCurrentRun >= totalFilesInCurrentRun || totalFilesInCurrentRun === 0`. -/
def newRunCondition (s : AppState) : Prop :=
  s.totalFilesInCurrentRun ≤ s.filesProcessedInCurrentRun ∨ s.totalFilesInCurrentRun = 0

instance (s : AppState) : Decidable (newRunCondition s) := by
  unfold newRunCondition; infer_instance

/-- `conversionJobs.filter(j => j.status === IDLE).length`. -/
def idleCount (s : AppState) : Nat :=
  (s.conversionJobs.filter (fun j => decide (j.status = ConversionStatus.IDLE))).length

/-- `processNextFileInQueue`: the state mutations performed before its first
`await` (admission), or in its else-branch (clearing the processing flag when
nothing is idle and nothing is active).  Note the admission map flips *every*
job whose id equals the picked job's id to `READING_FILE`. -/
def processNextFileInQueue (s : AppState) : AppState :=
  if s.currentConvertingFileId.isSome || s.isZipping then s
  else
    match s.conversionJobs.find? (fun j => decide (j.status = ConversionStatus.IDLE)) with
    | some nextJob =>
      { s with
        isProcessingQueue := true
        currentConvertingFileId := some nextJob.id
        totalFilesInCurrentRun :=
          if newRunCondition s then idleCount s else s.totalFilesInCurrentRun
        filesProcessedInCurrentRun :=
          if newRunCondition s then 0 else s.filesProcessedInCurrentRun
        conversionJobs := s.conversionJobs.map (fun j =>
          if j.id = nextJob.id then
            { j with
              status := ConversionStatus.READING_FILE
              progress := 0
              error := none
              result := none }
          else j) }
    | none =>
      if s.conversionJobs.any (fun j => activeStatusB j.status) = false then
        { s with isProcessingQueue := false }
      else s

/-- The per-job update of the hook-mirroring `useEffect` (lines 139-171 of the
application component). -/
def mirrorJob (hookStatus : ConversionStatus) (hookProgress : Nat)
    (hookResult : ConverterResult) (hookError : Option String)
    (job : ConversionJob) : ConversionJob :=
  { job with
    status := hookStatus
    progress :=
      if activeStatusB hookStatus then hookProgress
      else if hookStatus = ConversionStatus.DONE then 100
      else if hookStatus = ConversionStatus.ERROR then 0
      else job.progress
    result := if hookStatus = ConversionStatus.DONE then some hookResult else job.result
    error := if hookStatus = ConversionStatus.ERROR then hookError else none }

/-- `hookStatus === DONE || hookStatus === ERROR`. -/
def mirrorTerminal (hs : ConversionStatus) : Bool :=
  decide (hs = ConversionStatus.DONE) || decide (hs = ConversionStatus.ERROR)

/-- How many jobs carry the admitted id (1 in normal operation; the mirroring
effect updates, and on a terminal status counts, each of them). -/
def matchCountOf (s : AppState) (cid : String) : Nat :=
  s.conversionJobs.countP (fun j => decide (j.id = cid))

/-- The hook-mirroring `useEffect`: when a conversion is admitted
(`currentConvertingFileId` set) it copies the hook's status/progress/result/
error onto every job with the admitted id; on a terminal hook status it also
clears the admitted-id marker and bumps `filesProcessedInCurrentRun` once per
matching job (the `setState` calls sit inside the `map` callback, so they fire
once per job carrying the admitted id). -/
def mirrorHook (s : AppState) (hookStatus : ConversionStatus) (hookProgress : Nat)
    (hookResult : ConverterResult) (hookError : Option String) : AppState :=
  match s.currentConvertingFileId with
  | none => s
  | some cid =>
    { s with
      conversionJobs := s.conversionJobs.map (fun job =>
        if job.id = cid then mirrorJob hookStatus hookProgress hookResult hookError job
        else job)
      currentConvertingFileId :=
        if mirrorTerminal hookStatus = true ∧ matchCountOf s cid ≠ 0 then none
        else s.currentConvertingFileId
      filesProcessedInCurrentRun :=
        s.filesProcessedInCurrentRun +
          (if mirrorTerminal hookStatus = true then matchCountOf s cid else 0) }

/-- The `updatedJobs` local of `removeFile`: every job whose id differs from
the removed one. -/
def updatedJobsOf (s : AppState) (fileId : String) : List ConversionJob :=
  s.conversionJobs.filter (fun j => ! decide (j.id = fileId))

/-- The `currentlyProcessing` local of `removeFile`: whether a job with the
admitted id survives the removal. -/
def currentlyProcessingAfter (s : AppState) (fileId : String) : Bool :=
  match s.currentConvertingFileId with
  | some cid => ((updatedJobsOf s fileId).find? (fun j => decide (j.id = cid))).isSome
  | none => false

/-- The `newTotal` local of `removeFile`: remaining idle jobs, plus one when a
job is still admitted (never negative, being a count). -/
def newTotalOf (s : AppState) (fileId : String) : Nat :=
  ((updatedJobsOf s fileId).filter
    (fun j => decide (j.status = ConversionStatus.IDLE))).length +
    (if currentlyProcessingAfter s fileId = true then 1 else 0)

/-- The run counters after `removeFile` (before the empty-list override):
recomputed and capped when the removed job was idle and a run is being
tracked, untouched otherwise.  `jobToRemove` is the `find?` on the removed
id. -/
def removeCountersOf (s : AppState) (fileId : String) : Nat × Nat :=
  match s.conversionJobs.find? (fun j => decide (j.id = fileId)) with
  | some jr =>
    if jr.status = ConversionStatus.IDLE then
      if 0 < s.totalFilesInCurrentRun ∧
          s.filesProcessedInCurrentRun < s.totalFilesInCurrentRun then
        (newTotalOf s fileId, min s.filesProcessedInCurrentRun (newTotalOf s fileId))
      else (s.totalFilesInCurrentRun, s.filesProcessedInCurrentRun)
    else (s.totalFilesInCurrentRun, s.filesProcessedInCurrentRun)
  | none => (s.totalFilesInCurrentRun, s.filesProcessedInCurrentRun)

/-- `removeFile`.  The guard refuses removal while zipping or when the removed
id is the admitted one with the processing flag set; the `filter` drops every
job with the given id; an idle removed job belonging to the tracked run
triggers the total recompute and the completed-count cap; emptying the list
clears the counters and the processing flag. -/
def removeFile (s : AppState) (fileId : String) : AppState :=
  if s.isZipping ∨ (s.currentConvertingFileId = some fileId ∧ s.isProcessingQueue) then s
  else if (updatedJobsOf s fileId).length = 0 then
    { s with
      conversionJobs := updatedJobsOf s fileId
      totalFilesInCurrentRun := 0
      filesProcessedInCurrentRun := 0
      isProcessingQueue := false }
  else
    { s with
      conversionJobs := updatedJobsOf s fileId
      totalFilesInCurrentRun := (removeCountersOf s fileId).1
      filesProcessedInCurrentRun := (removeCountersOf s fileId).2 }

/-- `handleResetClick` (refused while zipping; otherwise clears everything). -/
def handleResetClick (s : AppState) : AppState :=
  if s.isZipping then s
  else
    { conversionJobs := []
      currentConvertingFileId := none
      isProcessingQueue := false
      totalFilesInCurrentRun := 0
      filesProcessedInCurrentRun := 0
      isZipping := s.isZipping }

/-- `job.status === DONE && job.result?.mp3Blob` for one job. -/
def hasResultBlob (j : ConversionJob) : Bool :=
  match j.result with
  | some r => r.mp3Blob.isSome
  | none => false

/-- The `filesToZip` list of `handleDownloadAllClick`. -/
def filesToZip (s : AppState) : List ConversionJob :=
  s.conversionJobs.filter
    (fun j => decide (j.status = ConversionStatus.DONE) && hasResultBlob j)

/-- The state mutation at the start of a bulk export (`setIsZipping(true)`
after all three refusal checks pass). -/
def zipStart (s : AppState) (jszipLoaded : Bool) : AppState :=
  if s.isProcessingQueue || s.isZipping then s
  else if (filesToZip s).length = 0 then s
  else if jszipLoaded = false then s
  else { s with isZipping := true }

/-- The `finally` block of `handleDownloadAllClick`: `setIsZipping(false)`. -/
def zipFinish (s : AppState) : AppState :=
  { s with isZipping := false }

/-- `handleDownloadAllClick` end to end: the returned Bool records whether
zipping was performed.  Whether `zip.generateAsync` throws (`zipFails`) only
changes the alert shown; the `catch` touches no job and the `finally` clears
the flag either way, and `conversionJobs` is never written anywhere in the
handler. -/
def handleDownloadAllClick (s : AppState) (jszipLoaded zipFails : Bool) :
    AppState × Bool :=
  if s.isProcessingQueue || s.isZipping then (s, false)
  else if (filesToZip s).length = 0 then (s, false)
  else if jszipLoaded = false then (s, false)
  else (zipFinish (zipStart s jszipLoaded), true)

/-- One atomic event of the controller: each constructor is one event handler
or effect body, whose state mutations happen between two suspension points. -/
inductive QStep : AppState → AppState → Prop where
  | filesSelected (s : AppState) (files : List JsFile) :
      QStep s (handleFilesSelect s files)
  | queueKick (s : AppState) : QStep s (processNextFileInQueue s)
  | hookMirror (s : AppState) (hs : ConversionStatus) (pr : Nat)
      (res : ConverterResult) (err : Option String) :
      QStep s (mirrorHook s hs pr res err)
  | fileRemoved (s : AppState) (fid : String) : QStep s (removeFile s fid)
  | resetClicked (s : AppState) : QStep s (handleResetClick s)
  | zipStarted (s : AppState) (jszipLoaded : Bool) : QStep s (zipStart s jszipLoaded)
  | zipFinished (s : AppState) : QStep s (zipFinish s)

/-- States the controller can be in, starting from the component's fresh
state. -/
inductive Reachable : AppState → Prop where
  | base : Reachable initState
  | step {s s' : AppState} : Reachable s → QStep s s' → Reachable s'

/-! ## Concrete inputs used by witnesses and counterexamples -/

/-- A minimal valid mono 16-bit PCM WAV, sample rate 8000, one sample 0x1234:
RIFF header, a 16-byte `fmt ` chunk, and a `data` chunk of declared size 2. -/
def wav16 : List Nat :=
  [82, 73, 70, 70, 38, 0, 0, 0, 87, 65, 86, 69,
   102, 109, 116, 32, 16, 0, 0, 0, 1, 0, 1, 0, 64, 31, 0, 0, 128, 62, 0, 0, 2, 0, 16, 0,
   100, 97, 116, 97, 2, 0, 0, 0, 52, 18]

/-- Like `wav16`, but with `data` chunk size declared as the odd number 3 (and
4 payload bytes present). -/
def wavOdd : List Nat :=
  [82, 73, 70, 70, 40, 0, 0, 0, 87, 65, 86, 69,
   102, 109, 116, 32, 16, 0, 0, 0, 1, 0, 1, 0, 64, 31, 0, 0, 128, 62, 0, 0, 2, 0, 16, 0,
   100, 97, 116, 97, 3, 0, 0, 0, 52, 18, 255, 0]

/-- Like `wav16`, but with an empty `data` chunk (declared size 0). -/
def wavEmptyData : List Nat :=
  [82, 73, 70, 70, 36, 0, 0, 0, 87, 65, 86, 69,
   102, 109, 116, 32, 16, 0, 0, 0, 1, 0, 1, 0, 64, 31, 0, 0, 128, 62, 0, 0, 2, 0, 16, 0,
   100, 97, 116, 97, 0, 0, 0, 0]

/-- A buffer whose fmt chunk declares 0 bits per sample. -/
def wavZeroBits : List Nat :=
  [82, 73, 70, 70, 36, 0, 0, 0, 87, 65, 86, 69,
   102, 109, 116, 32, 16, 0, 0, 0, 1, 0, 1, 0, 64, 31, 0, 0, 0, 0, 0, 0, 0, 0, 0, 0]

/-- A buffer whose first chunk is an unrecognized `LIST` chunk of odd size 1
(so the scanner skips 8 + 1 + 1 bytes over it). -/
def wavJunkChunk : List Nat :=
  [82, 73, 70, 70, 0, 0, 0, 0, 87, 65, 86, 69, 76, 73, 83, 84, 1, 0, 0, 0, 99, 0]

def fileA : JsFile := ⟨"a.wav", 4, 1⟩

def fileB : JsFile := ⟨"b.wav", 4, 1⟩

def fileC : JsFile := ⟨"c.wav", 4, 1⟩

def fileDup : JsFile := ⟨"dup.wav", 4, 1⟩

/-- A job in terminal DONE status holding a result blob. -/
def doneJobW : ConversionJob :=
  ⟨"a.wav-4-1", fileA, .DONE, 100,
    some ⟨some ⟨[1], "audio/mpeg"⟩, some "u", some "a.mp3"⟩, none⟩

/-- A quiescent state with one DONE job, ready for bulk export. -/
def doneStateW : AppState := ⟨[doneJobW], none, false, 1, 1, false⟩

/-- One idle job. -/
def oneIdleState : AppState := handleFilesSelect initState [fileA]

/-- Two distinct idle jobs. -/
def twoIdleState : AppState := handleFilesSelect initState [fileA, fileB]

/-- A reachable state with one admitted job. -/
def oneAdmittedState : AppState :=
  processNextFileInQueue (handleFilesSelect initState [fileA])

/-- Three distinct jobs with the first admitted (total 3, processed 0). -/
def admitted3State : AppState :=
  processNextFileInQueue (handleFilesSelect initState [fileA, fileB, fileC])

/-- The reachable state holding the two identically-identified jobs of one
duplicate batch. -/
def dupSubmittedState : AppState := handleFilesSelect initState [fileDup, fileDup]

/-- The reachable state obtained by selecting, in one batch, two files with
the same name, size and modification time, and letting the queue effect admit
the next idle job: both copies get the admitted id and both are flipped to
`READING_FILE`. -/
def dupAdmittedState : AppState :=
  processNextFileInQueue (handleFilesSelect initState [fileDup, fileDup])

/-- A one-chunk abstract encoder used by the block-accounting witness. -/
def encodeOutW : Nat → List Nat := fun k => if k = 0 then [7, 8] else []

/-- The record `parseWavFile wav16` produces. -/
def wavDataW : WavData := ⟨1, 8000, [4660], 16⟩

/-- The blob the block-accounting witness conversion produces. -/
def blobW : Blob := ⟨[7, 8, 9], "audio/mpeg"⟩

/-- The inductive invariant of the controller: every actively-progressing job
carries the admitted id, and an admitted id implies the processing flag is set
and a job with that id is in the list. -/
def Inv (s : AppState) : Prop :=
  (∀ j ∈ s.conversionJobs, activeStatusB j.status = true →
    s.currentConvertingFileId = some j.id) ∧
  (∀ cid, s.currentConvertingFileId = some cid →
    s.isProcessingQueue = true ∧ ∃ j ∈ s.conversionJobs, j.id = cid)

/-! ## Claim C4: the 8-bit sample normalizer -/

/-- Claim C4: for every 8-bit unsigned source sample x in [0,255], the
normalizer produces the signed 16-bit value (x - 128) * 256; in particular 128
maps to 0, 0 maps to -32768, and 255 maps to 32512. -/
theorem conv8_spec :
    (∀ x : Nat, x ≤ 255 → conv8 x = ((x : Int) - 128) * 256) ∧
    conv8 128 = 0 ∧ conv8 0 = -32768 ∧ conv8 255 = 32512 := by
  refine ⟨?_, by decide, by decide, by decide⟩
  intro x hx
  unfold conv8 jsToInt32 jsToInt16
  omega

/-- Witness for `conv8_spec`: its universally quantified part applied at 200. -/
theorem conv8_spec_witness : conv8 200 = (((200 : Nat) : Int) - 128) * 256 :=
  conv8_spec.1 200 (by decide)

/-! ## Claim C9: bulk export mutates no job state -/

/-- Claim C9: when bulk export (archive generation) fails, no field of any job
is mutated and the export-in-progress flag is cleared so the user may retry;
export is refused when no Done job with a result exists, when the archive
library is absent, or while processing or export is already underway.  The
first conjunct says the handler leaves the whole controller state unchanged
(in particular every job field, and the zipping flag is back to false after a
run because it was false before the run), on the failing path `zipFails = true`
just as on the successful one; the second characterizes exactly when the
export actually runs. -/
theorem handleDownloadAllClick_spec :
    ∀ (s : AppState) (jszipLoaded zipFails : Bool),
      (handleDownloadAllClick s jszipLoaded zipFails).1 = s ∧
      ((handleDownloadAllClick s jszipLoaded zipFails).2 = true ↔
        (s.isProcessingQueue = false ∧ s.isZipping = false ∧
          (filesToZip s).length ≠ 0 ∧ jszipLoaded = true)) := by
  intro s j f
  obtain ⟨jobs, cur, ip, tot, pr, z⟩ := s
  unfold handleDownloadAllClick zipFinish zipStart
  split_ifs with h1 h2 h3
  · refine ⟨rfl, ?_⟩
    simp only [Bool.or_eq_true] at h1
    constructor
    · intro hfalse; exact absurd hfalse (by simp)
    · rintro ⟨hip, hz, -, -⟩
      subst hip; subst hz
      rcases h1 with h | h <;> simp at h
  · refine ⟨rfl, ?_⟩
    constructor
    · intro hfalse; exact absurd hfalse (by simp)
    · rintro ⟨-, -, hlen, -⟩; exact absurd h2 hlen
  · refine ⟨rfl, ?_⟩
    constructor
    · intro hfalse; exact absurd hfalse (by simp)
    · rintro ⟨-, -, -, hj⟩; rw [hj] at h3; simp at h3
  · simp only [Bool.or_eq_true, not_or] at h1
    obtain ⟨hip, hz⟩ := h1
    have hip2 : ip = false := by
      cases ip
      · rfl
      · exact absurd rfl hip
    have hz2 : z = false := by
      cases z
      · rfl
      · exact absurd rfl hz
    subst hip2; subst hz2
    have hj2 : j = true := by
      cases j
      · exact absurd rfl h3
      · rfl
    refine ⟨rfl, ?_⟩
    constructor
    · intro _
      exact ⟨rfl, rfl, h2, hj2⟩
    · intro _
      rfl

/-- Witness for `handleDownloadAllClick_spec`: a state with one DONE job whose
export runs and changes nothing. -/
theorem handleDownloadAllClick_spec_witness :
    (handleDownloadAllClick doneStateW true true).1 = doneStateW ∧
    (handleDownloadAllClick doneStateW true true).2 = true := by
  have h := handleDownloadAllClick_spec doneStateW true true
  exact ⟨h.1, h.2.mpr ⟨rfl, rfl, by decide, rfl⟩⟩

/-! ## Claim C10: an empty data chunk is rejected -/

/-- Claim C10: for every buffer with a valid RIFF/WAVE signature whose chunk
scan locates a data chunk of declared size 0, decode returns a failure rather
than a record with an empty sample sequence. -/
theorem parseWavFile_emptyData_fails :
    ∀ (view : List Nat) (st : ScanState) (dOff : Nat),
      getStringFromDataView view 0 4 = some riffTag →
      getStringFromDataView view 8 4 = some waveTag →
      scanChunks view 12 initialScanState = .finished st (some (dOff, 0)) →
      parseWavFile view = .fail := by
  intro view st dOff hr hw hscan
  unfold parseWavFile
  rw [hr, hw, hscan]
  simp

/-- Witness for `parseWavFile_emptyData_fails` at a concrete valid WAV with an
empty data chunk. -/
theorem parseWavFile_emptyData_fails_witness : parseWavFile wavEmptyData = .fail :=
  parseWavFile_emptyData_fails wavEmptyData ⟨true, 1, 8000, 16⟩ 44
    (by decide) (by decide) (by decide)

/-! ## Claim C2: the decoder and escaping exceptions -/

/-- A read of `len` bytes starting at `offset` runs past the buffer end, so it
throws (the JS loop raises a RangeError at the first out-of-bounds
`getUint8`). -/
theorem getStringFromDataView_eq_none (view : List Nat) :
    ∀ (len offset : Nat), 0 < len → view.length < offset + len →
      getStringFromDataView view offset len = none := by
  intro len
  induction len with
  | zero => intro offset h; omega
  | succ n ih =>
    intro offset hpos hlt
    cases hb : view[offset]? with
    | none => simp [getStringFromDataView, hb]
    | some b =>
      have hoff : offset < view.length := by
        by_contra hc
        rw [List.getElem?_eq_none (by omega)] at hb
        exact Option.noConfusion hb
      have hn : 0 < n := by omega
      have := ih (offset + 1) hn (by omega)
      simp [getStringFromDataView, hb, this]

/-- Claim C2 counterexample: decoding the empty buffer does not return a
record or an explicit failure — the very first header read throws a
RangeError that escapes `parseWavFile`. -/
theorem parseWavFile_nil_throws : parseWavFile [] = ParseResult.threw := by decide

/-- Claim C2 (amended): `parseWavFile` itself can let a RangeError escape —
for instance on every buffer shorter than 4 bytes, where the signature read is
out of bounds — but the conversion pipeline (`convertWavToMp3`) wraps parsing
in try/catch and turns any such thrown error into an explicit ERROR outcome,
so at the pipeline boundary the caller always receives a complete record or an
explicit failure, never a partial record and never an escaping exception. -/
theorem parser_throw_caught_by_pipeline :
    ∀ (v : List Nat) (encodeOut : Nat → List Nat) (flushOut : List Nat),
      (v.length < 4 → parseWavFile v = .threw) ∧
      (parseWavFile v = .threw →
        convertWavToMp3 v encodeOut flushOut true = .errorResult) := by
  intro v enc fl
  constructor
  · intro hlen
    unfold parseWavFile
    rw [getStringFromDataView_eq_none v 4 0 (by omega) (by omega)]
  · intro hthrew
    unfold convertWavToMp3
    rw [if_neg (by simp), hthrew]

/-- Witness for `parser_throw_caught_by_pipeline` at the empty buffer. -/
theorem parser_throw_caught_by_pipeline_witness :
    parseWavFile [] = .threw ∧
    convertWavToMp3 [] (fun _ => []) [] true = .errorResult :=
  ⟨(parser_throw_caught_by_pipeline [] (fun _ => []) []).1 (by decide),
   (parser_throw_caught_by_pipeline [] (fun _ => []) []).2 (by decide)⟩

/-! ## Claim C3: zero bit depth and non-divisible data sizes -/

/-- Claim C3 counterexample: `wavOdd` declares 16 bits per sample and a data
chunk of the odd size 3, yet decode returns a complete one-sample record
(⌊3/2⌋ = 1, the JS Int16Array length truncation) instead of a failure. -/
theorem parseWavFile_oddDataSize_returns_record :
    scanChunks wavOdd 12 initialScanState =
      .finished ⟨true, 1, 8000, 16⟩ (some (44, 3)) ∧
    parseWavFile wavOdd = ParseResult.ok ⟨1, 8000, [4660], 16⟩ :=
  ⟨by decide, by decide⟩

/-- Claim C3 (amended): a zero bit depth is a decode failure — the fmt chunk
declaring it is rejected during the chunk scan by the 8-or-16 bit check; but
for 16-bit data a size not divisible by the sample width 2 is not a failure:
the sample count is truncated to ⌊size/2⌋ and a complete record is returned
whenever those bytes are in bounds (the construction throws when they are
not). -/
theorem zeroBitDepth_fails_odd16_truncates :
    (∀ (view : List Nat) (offset : Nat) (st : ScanState) (cs ch sr : Nat),
      offset + 8 ≤ view.length →
      getStringFromDataView view offset 4 = some fmtTag →
      getUint32 view (offset + 4) = some cs →
      ¬ cs < 16 →
      getUint16 view (offset + 8) = some 1 →
      getUint16 view (offset + 10) = some ch →
      getUint32 view (offset + 12) = some sr →
      getUint16 view (offset + 22) = some 0 →
      scanChunks view offset st = .returnedNull) ∧
    (∀ (view : List Nat) (st : ScanState) (dOff dSize : Nat),
      st.bitsPerSampleOriginal = 16 →
      dOff % 2 = 0 →
      dOff + 2 * (dSize / 2) ≤ view.length →
      buildSamples view st dOff dSize =
        .ok ⟨st.channels, st.sampleRate, int16SamplesOf view dOff (dSize / 2), 16⟩ ∧
      (int16SamplesOf view dOff (dSize / 2)).length = dSize / 2) := by
  constructor
  · intro view offset st cs ch sr hb hfmt hcs hncs haf hch hsr hbits
    have h1 : offset < view.length := by omega
    have h2 : ¬ offset + 8 > view.length := by omega
    unfold scanChunks
    simp [scanLoop, h1, h2, hfmt, hcs, hncs, haf, hch, hsr, hbits]
  · intro view st dOff dSize h16 halign hbound
    have hb2 : ¬ dOff + 2 * (dSize / 2) > view.length := by omega
    constructor
    · unfold buildSamples
      rw [h16]
      simp [halign, hb2]
    · simp [int16SamplesOf]

/-- Witness for `zeroBitDepth_fails_odd16_truncates`: the zero-bit-depth scan
rejection at `wavZeroBits`, and the truncating 16-bit construction at
`wavOdd`'s data chunk. -/
theorem zeroBitDepth_fails_odd16_truncates_witness :
    scanChunks wavZeroBits 12 initialScanState = .returnedNull ∧
    buildSamples wavOdd ⟨true, 1, 8000, 16⟩ 44 3 =
      .ok ⟨1, 8000, int16SamplesOf wavOdd 44 1, 16⟩ ∧
    (int16SamplesOf wavOdd 44 1).length = 1 :=
  ⟨zeroBitDepth_fails_odd16_truncates.1 wavZeroBits 12 initialScanState 16 1 8000
      (by decide) (by decide) (by decide) (by decide) (by decide) (by decide)
      (by decide) (by decide),
   (zeroBitDepth_fails_odd16_truncates.2 wavOdd ⟨true, 1, 8000, 16⟩ 44 3
      (by decide) (by decide) (by decide)).1,
   (zeroBitDepth_fails_odd16_truncates.2 wavOdd ⟨true, 1, 8000, 16⟩ 44 3
      (by decide) (by decide) (by decide)).2⟩

/-! ## Claim C5: chunk-scan advancement -/

/-- The fuel of `scanLoop` is irrelevant once it allows the loop to run to
completion: every iteration advances `offset` by at least 8, so any fuel with
`view.length ≤ offset + 8 * fuel` gives the same outcome. -/
theorem scanLoop_congr (view : List Nat) :
    ∀ (f g offset : Nat) (st : ScanState),
      view.length ≤ offset + 8 * f → view.length ≤ offset + 8 * g →
      scanLoop view f offset st = scanLoop view g offset st := by
  intro f
  induction f with
  | zero =>
    intro g offset st hf hg
    cases g with
    | zero => rfl
    | succ m =>
      have h : ¬ offset < view.length := by omega
      simp [scanLoop, h]
  | succ n ih =>
    intro g offset st hf hg
    cases g with
    | zero =>
      have h : ¬ offset < view.length := by omega
      simp [scanLoop, h]
    | succ m =>
      simp only [scanLoop]
      repeat' first
        | rfl
        | (exact ih m _ _ (by omega) (by omega))
        | split

/-- Claim C5: for every buffer with a valid RIFF/WAVE signature, the chunk
scanner advances over each chunk other than the data chunk by
8 + size + (size mod 2) bytes (one extra padding byte when the declared size
is odd) — first conjunct for unrecognized chunks, second for valid fmt chunks;
it stops scanning when fewer than 8 bytes remain for a chunk header (the
implication before the conjunction); and it inspects no chunk after the first
data chunk is found (third and fourth conjuncts: the scan returns immediately
at a data chunk, with the recorded payload position when the format chunk was
seen and with the `null` rejection otherwise). -/
theorem scanChunks_step :
    ∀ (view : List Nat) (offset : Nat) (st : ScanState) (cid : List Nat)
      (cs ch sr bits : Nat),
      (offset + 8 > view.length → scanChunks view offset st = .finished st none) ∧
      (offset + 8 ≤ view.length →
        getStringFromDataView view offset 4 = some cid →
        getUint32 view (offset + 4) = some cs →
        (cid ≠ fmtTag → cid ≠ dataTag →
          scanChunks view offset st = scanChunks view (offset + 8 + cs + cs % 2) st) ∧
        (cid = fmtTag → ¬ cs < 16 →
          getUint16 view (offset + 8) = some 1 →
          getUint16 view (offset + 10) = some ch →
          getUint32 view (offset + 12) = some sr →
          getUint16 view (offset + 22) = some bits →
          ¬ (bits ≠ 8 ∧ bits ≠ 16) →
          scanChunks view offset st =
            scanChunks view (offset + 8 + cs + cs % 2) ⟨true, ch, sr, bits⟩) ∧
        (cid = dataTag → st.foundFmt = true →
          scanChunks view offset st = .finished st (some (offset + 8, cs))) ∧
        (cid = dataTag → st.foundFmt = false →
          scanChunks view offset st = .returnedNull)) := by
  intro view offset st cid cs ch sr bits
  constructor
  · intro h
    unfold scanChunks
    by_cases h1 : offset < view.length
    · simp [scanLoop, h1, h]
    · simp [scanLoop, h1]
  · intro hb hcid hcs
    have h1 : offset < view.length := by omega
    have h2 : ¬ offset + 8 > view.length := by omega
    refine ⟨?_, ?_, ?_, ?_⟩
    · intro hnf hnd
      unfold scanChunks
      have hstep : scanLoop view (view.length + 1) offset st =
          scanLoop view view.length (offset + 8 + cs + cs % 2) st := by
        simp [scanLoop, h1, h2, hcid, hcs, hnf, hnd]
      rw [hstep]
      exact scanLoop_congr view view.length (view.length + 1) _ st (by omega) (by omega)
    · intro hf hncs haf hch hsr hbits hok
      subst hf
      unfold scanChunks
      have hstep : scanLoop view (view.length + 1) offset st =
          scanLoop view view.length (offset + 8 + cs + cs % 2) ⟨true, ch, sr, bits⟩ := by
        simp [scanLoop, h1, h2, hcid, hcs, hncs, haf, hch, hsr, hbits, hok]
      rw [hstep]
      exact scanLoop_congr view view.length (view.length + 1) _ _ (by omega) (by omega)
    · intro hd hf
      subst hd
      have hdf : ¬ (dataTag = fmtTag) := by decide
      unfold scanChunks
      simp [scanLoop, h1, h2, hcid, hcs, hdf, hf]
    · intro hd hf
      subst hd
      have hdf : ¬ (dataTag = fmtTag) := by decide
      unfold scanChunks
      simp [scanLoop, h1, h2, hcid, hcs, hdf, hf]

/-- Witness for `scanChunks_step`: the short-header stop, the odd-size skip
with its padding byte, the fmt advance, and the immediate stop at a data
chunk, each at a concrete buffer and offset. -/
theorem scanChunks_step_witness :
    scanChunks wavJunkChunk 22 initialScanState = .finished initialScanState none ∧
    scanChunks wavJunkChunk 12 initialScanState = scanChunks wavJunkChunk 22 initialScanState ∧
    scanChunks wav16 12 initialScanState = scanChunks wav16 36 ⟨true, 1, 8000, 16⟩ ∧
    scanChunks wav16 36 ⟨true, 1, 8000, 16⟩ =
      .finished ⟨true, 1, 8000, 16⟩ (some (44, 2)) :=
  ⟨(scanChunks_step wavJunkChunk 22 initialScanState [] 0 0 0 0).1 (by decide),
   (((scanChunks_step wavJunkChunk 12 initialScanState [76, 73, 83, 84] 1 0 0 0).2
      (by decide) (by decide) (by decide)).1 (by decide) (by decide)),
   ((((scanChunks_step wav16 12 initialScanState fmtTag 16 1 8000 16).2
      (by decide) (by decide) (by decide)).2.1 rfl (by decide) (by decide) (by decide)
      (by decide) (by decide) (by decide))),
   ((((scanChunks_step wav16 36 ⟨true, 1, 8000, 16⟩ dataTag 2 0 0 0).2
      (by decide) (by decide) (by decide)).2.2.1 rfl rfl))⟩

/-! ## The controller invariant -/

theorem Inv_handleFilesSelect (s : AppState) (files : List JsFile) (h : Inv s) :
    Inv (handleFilesSelect s files) := by
  unfold handleFilesSelect
  split_ifs with hz hn
  · exact h
  · constructor
    · intro j hj hact
      rcases List.mem_append.mp hj with hj | hj
      · exact h.1 j hj hact
      · exfalso
        obtain ⟨f, hf, rfl⟩ := List.mem_map.mp (List.mem_of_mem_filter hj)
        simp [mkIdleJob, activeStatusB] at hact
    · intro cid hcid
      obtain ⟨hq, j, hj, hid⟩ := h.2 cid hcid
      exact ⟨hq, j, List.mem_append.mpr (.inl hj), hid⟩
  · exact h

theorem Inv_processNextFileInQueue (s : AppState) (h : Inv s) :
    Inv (processNextFileInQueue s) := by
  unfold processNextFileInQueue
  by_cases hg : (s.currentConvertingFileId.isSome || s.isZipping) = true
  · rw [if_pos hg]; exact h
  · rw [if_neg hg]
    have hcur : s.currentConvertingFileId = none := by
      cases hc : s.currentConvertingFileId with
      | none => rfl
      | some c => exact absurd (by simp [hc]) hg
    cases hfind : s.conversionJobs.find?
        (fun j => decide (j.status = ConversionStatus.IDLE)) with
    | some nextJob =>
      constructor
      · intro j' hj' hact
        obtain ⟨j, hj, rfl⟩ := List.mem_map.mp hj'
        by_cases hid : j.id = nextJob.id
        · simp [hid]
        · exfalso
          simp only [hid, if_false] at hact
          have := h.1 j hj hact
          rw [hcur] at this
          exact Option.noConfusion this
      · intro cid hcid
        have hcid2 : some nextJob.id = some cid := hcid
        obtain rfl := (Option.some.inj hcid2).symm
        refine ⟨rfl, ?_⟩
        refine ⟨_, List.mem_map_of_mem _ (List.mem_of_find?_eq_some hfind), ?_⟩
        simp
    | none =>
      by_cases ha : (s.conversionJobs.any fun j => activeStatusB j.status) = false
      · rw [if_pos ha]
        constructor
        · intro j hj hact
          exact h.1 j hj hact
        · intro cid hcid
          have hcid2 : s.currentConvertingFileId = some cid := hcid
          rw [hcur] at hcid2
          exact Option.noConfusion hcid2
      · rw [if_neg ha]
        exact h

theorem Inv_mirrorHook (s : AppState) (hs : ConversionStatus) (pr : Nat)
    (res : ConverterResult) (err : Option String) (h : Inv s) :
    Inv (mirrorHook s hs pr res err) := by
  unfold mirrorHook
  cases hc : s.currentConvertingFileId with
  | none => exact h
  | some cid =>
    obtain ⟨hq, j0, hj0, hid0⟩ := h.2 cid hc
    constructor
    · intro j' hj' hact
      obtain ⟨j, hj, rfl⟩ := List.mem_map.mp hj'
      by_cases hid : j.id = cid
      · have hst : activeStatusB hs = true := by
          simpa [hid, mirrorJob] using hact
        have hterm : mirrorTerminal hs = false := by
          cases hs <;> simp_all [activeStatusB, mirrorTerminal]
        simp [hterm, hid, mirrorJob]
      · exfalso
        simp only [hid, if_false] at hact
        have := h.1 j hj hact
        rw [hc] at this
        exact hid (Option.some.inj this).symm
    · intro cid' hcid'
      have hcid2 : (if mirrorTerminal hs = true ∧ matchCountOf s cid ≠ 0 then none
          else some cid) = some cid' := hcid'
      by_cases hcond : mirrorTerminal hs = true ∧ matchCountOf s cid ≠ 0
      · rw [if_pos hcond] at hcid2
        exact Option.noConfusion hcid2
      · rw [if_neg hcond] at hcid2
        obtain rfl := Option.some.inj hcid2
        refine ⟨hq, ?_⟩
        refine ⟨_, List.mem_map_of_mem _ hj0, ?_⟩
        simp [hid0, mirrorJob]

theorem Inv_removeFile (s : AppState) (fid : String) (h : Inv s) :
    Inv (removeFile s fid) := by
  unfold removeFile
  split_ifs with hg hlen
  · exact h
  · -- updatedJobs is empty: the admitted job, if any, would have survived
    constructor
    · intro j hj hact
      exact h.1 j (List.mem_of_mem_filter hj) hact
    · intro cid hcid
      exfalso
      have hcid2 : s.currentConvertingFileId = some cid := hcid
      obtain ⟨hq, j0, hj0, hid0⟩ := h.2 cid hcid2
      have hne : ¬ (cid = fid) := by
        intro hcf
        exact hg (Or.inr ⟨by rw [← hcf]; exact hcid2, hq⟩)
      have hj0m : j0 ∈ updatedJobsOf s fid := by
        refine List.mem_filter.mpr ⟨hj0, ?_⟩
        simp [hid0, hne]
      rw [List.length_eq_zero.mp hlen] at hj0m
      exact (List.not_mem_nil j0) hj0m
  · constructor
    · intro j hj hact
      exact h.1 j (List.mem_of_mem_filter hj) hact
    · intro cid hcid
      have hcid2 : s.currentConvertingFileId = some cid := hcid
      obtain ⟨hq, j0, hj0, hid0⟩ := h.2 cid hcid2
      have hne : ¬ (cid = fid) := by
        intro hcf
        exact hg (Or.inr ⟨by rw [← hcf]; exact hcid2, hq⟩)
      refine ⟨hq, j0, ?_, hid0⟩
      refine List.mem_filter.mpr ⟨hj0, ?_⟩
      simp [hid0, hne]

theorem Inv_handleResetClick (s : AppState) (h : Inv s) :
    Inv (handleResetClick s) := by
  unfold handleResetClick
  split_ifs with hz
  · exact h
  · constructor
    · intro j hj hact
      exact absurd hj (List.not_mem_nil j)
    · intro cid hcid
      exact Option.noConfusion hcid

theorem Inv_zipStart (s : AppState) (jszipLoaded : Bool) (h : Inv s) :
    Inv (zipStart s jszipLoaded) := by
  unfold zipStart
  split_ifs <;> exact ⟨h.1, h.2⟩

theorem Inv_zipFinish (s : AppState) (h : Inv s) : Inv (zipFinish s) :=
  ⟨h.1, h.2⟩

theorem Inv_step {s s' : AppState} (h : Inv s) (hstep : QStep s s') : Inv s' := by
  cases hstep with
  | filesSelected files => exact Inv_handleFilesSelect s files h
  | queueKick => exact Inv_processNextFileInQueue s h
  | hookMirror hs pr res err => exact Inv_mirrorHook s hs pr res err h
  | fileRemoved fid => exact Inv_removeFile s fid h
  | resetClicked => exact Inv_handleResetClick s h
  | zipStarted jl => exact Inv_zipStart s jl h
  | zipFinished => exact Inv_zipFinish s h

theorem reachable_inv {s : AppState} (h : Reachable s) : Inv s := by
  induction h with
  | base =>
    constructor
    · intro j hj _
      exact absurd hj (List.not_mem_nil j)
    · intro cid hcid
      exact Option.noConfusion hcid
  | step hr hstep ih => exact Inv_step ih hstep

/-! ## Claim C1: at most one actively-progressing job -/

/-- When every element satisfying `p` maps to the same key `c` and the keys
are pairwise distinct, at most one element satisfies `p`. -/
theorem filter_length_le_one {α β : Type} (f : α → β) (p : α → Bool) (c : β) :
    ∀ l : List α, (l.map f).Nodup → (∀ j ∈ l, p j = true → f j = c) →
      (l.filter p).length ≤ 1 := by
  intro l
  induction l with
  | nil => intro _ _; simp
  | cons a t ih =>
    intro hnd hall
    rw [List.map_cons, List.nodup_cons] at hnd
    by_cases hpa : p a = true
    · rw [List.filter_cons_of_pos hpa]
      have ht : t.filter p = [] := by
        by_contra hne
        obtain ⟨b, hb⟩ := List.exists_mem_of_ne_nil _ hne
        have hbt := List.mem_of_mem_filter hb
        have hpb : p b = true := by
          have := List.of_mem_filter hb
          simpa using this
        have hfb : f b = c := hall b (List.mem_cons_of_mem a hbt) hpb
        have hfa : f a = c := hall a (List.mem_cons_self a t) hpa
        exact hnd.1 (by rw [hfa, ← hfb]; exact List.mem_map_of_mem f hbt)
      rw [ht]
      simp
    · rw [List.filter_cons_of_neg (by simpa using hpa)]
      exact ih hnd.2 (fun j hj hpj => hall j (List.mem_cons_of_mem a hj) hpj)

/-- Claim C1 counterexample: `dupAdmittedState` is reachable (one
`handleFilesSelect` of a batch holding two identically-identified files — the
dedup filter only compares against *previously* submitted jobs — then one run
of `processNextFileInQueue`), yet two jobs are simultaneously in
`READING_FILE`: the count of jobs with a status in
{ReadingFile, ParsingWav, Converting} is 2, not at most 1. -/
theorem two_active_jobs_reachable :
    Reachable dupAdmittedState ∧
    (dupAdmittedState.conversionJobs.filter
      (fun j => activeStatusB j.status)).length = 2 :=
  ⟨Reachable.step
      (Reachable.step Reachable.base (QStep.filesSelected initState [fileDup, fileDup]))
      (QStep.queueKick (handleFilesSelect initState [fileDup, fileDup])),
   by decide⟩

/-- Claim C1 (amended): at every reachable state of the job queue controller,
every job with a status in {ReadingFile, ParsingWav, Converting} carries the
single admitted id — a job is moved out of Idle only when admitted as the
currently-converting job, admission is refused while a job is already admitted
or an export is underway, and only jobs bearing the admitted id are mirrored
from pipeline events.  Consequently, whenever the job ids in the list are
pairwise distinct — which holds unless a single submitted batch contained two
files with identical name, size and modification time, the one case the
per-id dedup does not catch — at most one job is actively progressing. -/
theorem admitted_job_unique :
    ∀ s : AppState, Reachable s →
      (∀ j ∈ s.conversionJobs, activeStatusB j.status = true →
        s.currentConvertingFileId = some j.id) ∧
      ((s.conversionJobs.map (fun j => j.id)).Nodup →
        (s.conversionJobs.filter (fun j => activeStatusB j.status)).length ≤ 1) := by
  intro s hr
  have h := reachable_inv hr
  refine ⟨h.1, ?_⟩
  intro hnd
  cases hc : s.currentConvertingFileId with
  | none =>
    have hnil : s.conversionJobs.filter (fun j => activeStatusB j.status) = [] := by
      rw [List.filter_eq_nil_iff]
      intro j hj hact
      have := h.1 j hj (by simpa using hact)
      rw [hc] at this
      exact Option.noConfusion this
    rw [hnil]
    simp
  | some cid =>
    refine filter_length_le_one (fun j => j.id) _ cid s.conversionJobs hnd ?_
    intro j hj hact
    have := h.1 j hj hact
    rw [hc] at this
    exact (Option.some.inj this).symm

theorem oneAdmittedState_reachable : Reachable oneAdmittedState :=
  Reachable.step
    (Reachable.step Reachable.base (QStep.filesSelected initState [fileA]))
    (QStep.queueKick (handleFilesSelect initState [fileA]))

/-- Witness for `admitted_job_unique` at a concrete reachable state with
distinct ids. -/
theorem admitted_job_unique_witness :
    (oneAdmittedState.conversionJobs.filter
      (fun j => activeStatusB j.status)).length ≤ 1 :=
  (admitted_job_unique oneAdmittedState oneAdmittedState_reachable).2 (by decide)

/-! ## Claim C7: duplicate submissions across batches are dropped -/

/-- Claim C7: submitting the same file twice (same name, size, modification
time) in two submissions before the first is processed results in exactly one
job in the list: new files are deduplicated against the existing jobs by the
id derived from file identity, the duplicate second submission is silently
dropped (a no-op on the state), and non-duplicates are appended in Idle
status. -/
theorem duplicate_submission_dropped :
    ∀ (s : AppState) (f : JsFile),
      s.isZipping = false →
      s.conversionJobs.countP (fun j => decide (j.id = generateFileId f)) = 0 →
      (handleFilesSelect s [f]).conversionJobs = s.conversionJobs ++ [mkIdleJob f] ∧
      (handleFilesSelect s [f]).conversionJobs.countP
        (fun j => decide (j.id = generateFileId f)) = 1 ∧
      handleFilesSelect (handleFilesSelect s [f]) [f] = handleFilesSelect s [f] ∧
      (mkIdleJob f).status = ConversionStatus.IDLE := by
  intro s f hz h0
  have hany : s.conversionJobs.any (fun ej => decide (ej.id = (mkIdleJob f).id)) = false := by
    rw [List.any_eq_false]
    intro x hx
    have := List.countP_eq_zero.mp h0 x hx
    simpa [mkIdleJob] using this
  have hnew : newJobsOf s [f] = [mkIdleJob f] := by
    unfold newJobsOf
    simp only [List.map_cons, List.map_nil, List.filter_cons, hany]
    simp
  have h1 : handleFilesSelect s [f] =
      { s with conversionJobs := s.conversionJobs ++ [mkIdleJob f] } := by
    unfold handleFilesSelect
    rw [hnew]
    rw [if_neg (by simp [hz]), if_pos (by simp)]
  refine ⟨by rw [h1], ?_, ?_, rfl⟩
  · rw [h1]
    dsimp only
    rw [List.countP_append, h0]
    simp [mkIdleJob]
  · rw [h1]
    unfold handleFilesSelect
    have hnew2 : newJobsOf
        { s with conversionJobs := s.conversionJobs ++ [mkIdleJob f] } [f] = [] := by
      unfold newJobsOf
      simp only [List.map_cons, List.map_nil, List.filter_cons]
      have : ({ s with conversionJobs := s.conversionJobs ++ [mkIdleJob f] }
          : AppState).conversionJobs.any
          (fun ej => decide (ej.id = (mkIdleJob f).id)) = true := by
        rw [List.any_eq_true]
        exact ⟨mkIdleJob f, List.mem_append.mpr (.inr (List.mem_singleton_self _)), by simp⟩
      simp [this]
    rw [hnew2]
    rw [if_neg (by simp [hz])]
    simp

/-- Witness for `duplicate_submission_dropped` at the empty initial state. -/
theorem duplicate_submission_dropped_witness :
    (handleFilesSelect initState [fileA]).conversionJobs =
      initState.conversionJobs ++ [mkIdleJob fileA] ∧
    (handleFilesSelect initState [fileA]).conversionJobs.countP
      (fun j => decide (j.id = generateFileId fileA)) = 1 ∧
    handleFilesSelect (handleFilesSelect initState [fileA]) [fileA] =
      handleFilesSelect initState [fileA] ∧
    (mkIdleJob fileA).status = ConversionStatus.IDLE :=
  duplicate_submission_dropped initState fileA rfl (by decide)

/-! ## Claim C8: removal -/

/-- Removing one member of a list with pairwise-distinct ids by its id drops
exactly that member. -/
theorem filter_ne_length (j : ConversionJob) :
    ∀ l : List ConversionJob, (l.map (fun k => k.id)).Nodup → j ∈ l →
      (l.filter (fun k => ! decide (k.id = j.id))).length + 1 = l.length := by
  intro l
  induction l with
  | nil => intro _ hj; exact absurd hj (List.not_mem_nil j)
  | cons a t ih =>
    intro hnd hj
    rw [List.map_cons, List.nodup_cons] at hnd
    by_cases ha : a.id = j.id
    · rw [List.filter_cons_of_neg (by simp [ha])]
      have ht : t.filter (fun k => ! decide (k.id = j.id)) = t := by
        rw [List.filter_eq_self]
        intro b hb
        have hbid : ¬ b.id = a.id := by
          intro he
          refine hnd.1 ?_
          rw [← he]
          exact List.mem_map_of_mem _ hb
        have : ¬ b.id = j.id := by rw [← ha]; exact hbid
        simp [this]
      rw [ht]
      simp
    · rw [List.filter_cons_of_pos (by simp [ha])]
      have hjt : j ∈ t := by
        rcases List.mem_cons.mp hj with rfl | h
        · exact absurd rfl ha
        · exact h
      have := ih hnd.2 hjt
      simp only [List.length_cons]
      omega

/-- In a list with pairwise-distinct ids, `find?` by a member's id returns
exactly that member. -/
theorem find?_eq_self_of_nodup (j : ConversionJob) :
    ∀ l : List ConversionJob, (l.map (fun k => k.id)).Nodup → j ∈ l →
      l.find? (fun k => decide (k.id = j.id)) = some j := by
  intro l
  induction l with
  | nil => intro _ hj; exact absurd hj (List.not_mem_nil j)
  | cons a t ih =>
    intro hnd hj
    rw [List.map_cons, List.nodup_cons] at hnd
    by_cases ha : a.id = j.id
    · have hja : j = a := by
        rcases List.mem_cons.mp hj with rfl | h
        · rfl
        · exfalso
          refine hnd.1 ?_
          rw [ha]
          exact List.mem_map_of_mem _ h
      rw [List.find?_cons_of_pos _ (by simp [ha]), hja]
    · rw [List.find?_cons_of_neg _ (by simp [ha])]
      have hjt : j ∈ t := by
        rcases List.mem_cons.mp hj with rfl | h
        · exact absurd rfl ha
        · exact h
      exact ih hnd.2 hjt

/-- Claim C8 (amended): at every reachable state whose job ids are pairwise
distinct (which holds unless one submitted batch contained two files of
identical identity — see the counterexample, where a removal then drops both
copies at once): removing the currently admitted job is refused and the state
is unchanged; removing any other job present in the list decreases the job
list length by exactly one; if the removed job was Idle and a run is being
tracked (total positive and not yet completed, the code's recompute
condition), the run total is recomputed as a count — hence never negative —
and completed-in-run is capped so it never exceeds the new total; and removing
the last remaining job clears both run counters and the processing flag. -/
theorem removeFile_spec :
    ∀ s : AppState, Reachable s →
      (s.conversionJobs.map (fun j => j.id)).Nodup →
      (∀ cid, s.currentConvertingFileId = some cid → removeFile s cid = s) ∧
      (∀ j ∈ s.conversionJobs,
        s.currentConvertingFileId ≠ some j.id → s.isZipping = false →
        ((removeFile s j.id).conversionJobs.length + 1 = s.conversionJobs.length ∧
         (j.status = ConversionStatus.IDLE →
          0 < s.totalFilesInCurrentRun →
          s.filesProcessedInCurrentRun < s.totalFilesInCurrentRun →
          (removeFile s j.id).filesProcessedInCurrentRun ≤
            (removeFile s j.id).totalFilesInCurrentRun) ∧
         (s.conversionJobs.length = 1 →
          (removeFile s j.id).conversionJobs = [] ∧
          (removeFile s j.id).totalFilesInCurrentRun = 0 ∧
          (removeFile s j.id).filesProcessedInCurrentRun = 0 ∧
          (removeFile s j.id).isProcessingQueue = false))) := by
  intro s hr hnd
  have hinv := reachable_inv hr
  constructor
  · intro cid hcid
    have hq : s.isProcessingQueue = true := (hinv.2 cid hcid).1
    unfold removeFile
    rw [if_pos (Or.inr ⟨hcid, hq⟩)]
  · intro j hj hne hz
    have hguard : ¬ (s.isZipping = true ∨
        (s.currentConvertingFileId = some j.id ∧ s.isProcessingQueue = true)) := by
      rintro (h | ⟨h, -⟩)
      · rw [hz] at h; exact Bool.false_ne_true h
      · exact hne h
    refine ⟨?_, ?_, ?_⟩
    · unfold removeFile
      rw [if_neg hguard]
      have hlen := filter_ne_length j s.conversionJobs hnd hj
      split_ifs with h0
      · exact hlen
      · exact hlen
    · intro hidle htot hpr
      have hfind : s.conversionJobs.find? (fun k => decide (k.id = j.id)) = some j :=
        find?_eq_self_of_nodup j s.conversionJobs hnd hj
      have hcounters : removeCountersOf s j.id =
          (newTotalOf s j.id, min s.filesProcessedInCurrentRun (newTotalOf s j.id)) := by
        unfold removeCountersOf
        rw [hfind]
        dsimp only
        rw [if_pos hidle, if_pos ⟨htot, hpr⟩]
      unfold removeFile
      rw [if_neg hguard]
      split_ifs with h0
      · simp
      · show (removeCountersOf s j.id).2 ≤ (removeCountersOf s j.id).1
        rw [hcounters]
        exact Nat.min_le_right _ _
    · intro h1
      obtain ⟨a, ha⟩ := List.length_eq_one.mp h1
      have hja : j = a := by
        rw [ha] at hj
        simpa using hj
      rw [← hja] at ha
      have hupd : updatedJobsOf s j.id = [] := by
        unfold updatedJobsOf
        rw [ha]
        simp
      unfold removeFile
      rw [if_neg hguard, if_pos (by rw [hupd]; rfl)]
      exact ⟨hupd, rfl, rfl, rfl⟩

/-- Claim C8 counterexample: at the reachable state produced by one batch
containing two files of identical identity, removing that (non-admitted,
non-zipping) job does not decrease the list length by exactly one — the
filter drops both jobs carrying the id, going from 2 jobs to 0. -/
theorem remove_drops_two_jobs :
    Reachable dupSubmittedState ∧
    mkIdleJob fileDup ∈ dupSubmittedState.conversionJobs ∧
    dupSubmittedState.currentConvertingFileId = none ∧
    dupSubmittedState.isZipping = false ∧
    dupSubmittedState.conversionJobs.length = 2 ∧
    (removeFile dupSubmittedState (generateFileId fileDup)).conversionJobs.length = 0 :=
  ⟨Reachable.step Reachable.base (QStep.filesSelected initState [fileDup, fileDup]),
   by decide, by decide, by decide, by decide, by decide⟩

theorem twoIdleState_reachable : Reachable twoIdleState :=
  Reachable.step Reachable.base (QStep.filesSelected initState [fileA, fileB])

theorem admitted3State_reachable : Reachable admitted3State :=
  Reachable.step
    (Reachable.step Reachable.base (QStep.filesSelected initState [fileA, fileB, fileC]))
    (QStep.queueKick (handleFilesSelect initState [fileA, fileB, fileC]))

theorem oneIdleState_reachable : Reachable oneIdleState :=
  Reachable.step Reachable.base (QStep.filesSelected initState [fileA])

/-- Witness for `removeFile_spec`: the refusal of removing the admitted job,
the exactly-one decrease, the completed-never-exceeds-total cap after an idle
removal mid-run, and the clearing after removing the last job, each at a
concrete reachable state. -/
theorem removeFile_spec_witness :
    removeFile oneAdmittedState (generateFileId fileA) = oneAdmittedState ∧
    (removeFile twoIdleState (generateFileId fileB)).conversionJobs.length + 1 =
      twoIdleState.conversionJobs.length ∧
    (removeFile admitted3State (generateFileId fileC)).filesProcessedInCurrentRun ≤
      (removeFile admitted3State (generateFileId fileC)).totalFilesInCurrentRun ∧
    (removeFile oneIdleState (generateFileId fileA)).conversionJobs = [] ∧
    (removeFile oneIdleState (generateFileId fileA)).totalFilesInCurrentRun = 0 ∧
    (removeFile oneIdleState (generateFileId fileA)).filesProcessedInCurrentRun = 0 ∧
    (removeFile oneIdleState (generateFileId fileA)).isProcessingQueue = false := by
  refine ⟨?_, ?_, ?_, ?_⟩
  · exact (removeFile_spec oneAdmittedState oneAdmittedState_reachable (by decide)).1
      (generateFileId fileA) (by decide)
  · exact ((removeFile_spec twoIdleState twoIdleState_reachable (by decide)).2
      (mkIdleJob fileB) (by decide) (by decide) (by decide)).1
  · exact ((removeFile_spec admitted3State admitted3State_reachable (by decide)).2
      (mkIdleJob fileC) (by decide) (by decide) (by decide)).2.1
      (by decide) (by decide) (by decide)
  · exact ((removeFile_spec oneIdleState oneIdleState_reachable (by decide)).2
      (mkIdleJob fileA) (by decide) (by decide) (by decide)).2.2 (by decide)

/-! ## Claim C6: block accounting of the final blob -/

/-- Dropping the empty chunks does not change the concatenation. -/
theorem flatten_filter_pos (l : List (List Nat)) :
    (l.filter (fun c => 0 < c.length)).flatten = l.flatten := by
  induction l with
  | nil => rfl
  | cons a t ih =>
    by_cases h : 0 < a.length
    · simp [List.filter_cons, h, ih]
    · have ha : a = [] := List.length_eq_zero.mp (by omega)
      simp [List.filter_cons, h, ha, ih]

/-- The accumulated chunk list concatenates to all block outputs in order
followed by the flush output. -/
theorem mp3DataOf_flatten (enc : Nat → List Nat) (fl : List Nat) (n : Nat) :
    (mp3DataOf enc fl n).flatten = ((List.range n).map enc).flatten ++ fl := by
  unfold mp3DataOf
  rw [List.flatten_append, flatten_filter_pos]
  by_cases h : 0 < fl.length
  · simp [h]
  · have hfl : fl = [] := List.length_eq_zero.mp (by omega)
    simp [h, hfl]

/-- Claim C6: for every successful conversion, the final output blob is
exactly the concatenation, in order, of the encoded chunks returned per block
followed by the flush chunk (empty chunks are dropped before concatenation,
which changes nothing); its total byte length equals the sum of the lengths of
the accumulated chunks, with no gaps or overlaps; and it is tagged as MPEG
audio. -/
theorem convertWavToMp3_blob_accounting :
    ∀ (fileBytes : List Nat) (encodeOut : Nat → List Nat) (flushOut : List Nat)
      (w : WavData) (b : Blob),
      parseWavFile fileBytes = .ok w →
      convertWavToMp3 fileBytes encodeOut flushOut true = .done b →
      b.blobType = "audio/mpeg" ∧
      b.bytes = ((List.range (numBlocksOf w)).map encodeOut).flatten ++ flushOut ∧
      b.bytes.length =
        ((mp3DataOf encodeOut flushOut (numBlocksOf w)).map List.length).sum := by
  intro fb enc fl w b hparse hdone
  unfold convertWavToMp3 at hdone
  rw [if_neg (by simp), hparse] at hdone
  dsimp only at hdone
  by_cases hch : w.channels = 0 ∧ w.samples.length ≠ 0
  · rw [if_pos hch] at hdone
    exact absurd hdone (by simp)
  · rw [if_neg hch] at hdone
    injection hdone with hb
    subst hb
    exact ⟨rfl, mp3DataOf_flatten enc fl (numBlocksOf w), List.length_flatten _⟩

/-- Witness for `convertWavToMp3_blob_accounting` at `wav16` with a one-chunk
encoder and flush chunk `[9]`. -/
theorem convertWavToMp3_blob_accounting_witness :
    blobW.blobType = "audio/mpeg" ∧
    blobW.bytes = ((List.range (numBlocksOf wavDataW)).map encodeOutW).flatten ++ [9] ∧
    blobW.bytes.length =
      ((mp3DataOf encodeOutW [9] (numBlocksOf wavDataW)).map List.length).sum :=
  convertWavToMp3_blob_accounting wav16 encodeOutW [9] wavDataW blobW
    (by decide) (by decide)

end WavToMp3
